import Mathlib

/-!
Shallow embedding of the pair-expansion and coverage-checking logic of the
Frontier-CS repository (src/src/frontier_cs/batch/pair.py and
src/research/scripts/check_solutions.py), together with theorems settling
the specification claims about it.

File contents are modelled as lists of physical lines (`List String`); an
absent file is `Option.none`.  Python string primitives (`str.strip`,
`str.startswith`, `in`, slicing) are modelled by the `py*` helpers below,
each a direct list-of-characters rendering of the Python operation.
External collaborators (the naming-policy functions `sanitize_problem_name`
and `get_model_prefix` from `frontier_cs.models`, `hashlib.md5`, and
`yaml.safe_load`) are taken as function parameters, exactly as the core code
uses them: the code never inspects their output.
-/

namespace FrontierCS

/-- Model of Python `str.isspace` membership used by `str.strip()`:
ASCII whitespace characters. -/
def pyWs (c : Char) : Bool :=
  c == ' ' || c == '\t' || c == '\n' || c == '\r' || c == '\x0b' || c == '\x0c'

/-- Model of Python `str.strip()`: remove leading and trailing whitespace. -/
def pyStrip (s : String) : String :=
  ⟨(s.data.dropWhile pyWs).rdropWhile pyWs⟩

/-- Model of Python `str.startswith(p)`. -/
def pyStartsWith (s p : String) : Bool :=
  p.data.isPrefixOf s.data

/-- Model of Python `c in s` for a single character `c`. -/
def pyContainsChar (s : String) (c : Char) : Bool :=
  s.data.contains c

/-- Model of Python slicing `s[:n]` for `n ≥ 0`. -/
def pyTake (s : String) (n : Nat) : String :=
  ⟨s.data.take n⟩

/-- Model of Python slicing `s[n:]` for `n ≥ 0`. -/
def pyDrop (s : String) (n : Nat) : String :=
  ⟨s.data.drop n⟩

/-- Model of Python `s.rstrip("-")`. -/
def pyRstripDash (s : String) : String :=
  ⟨s.data.rdropWhile (· == '-')⟩

/-- A line survives a line-oriented reader when, after stripping, it is
non-blank and is not a `#` comment (the common guard of every reader loop). -/
def keepLine (s : String) : Bool :=
  !s.isEmpty && !(pyStartsWith s "#")

/-- The surviving lines of a file: every line stripped, blanks and `#`
comments removed. -/
def surviving (lines : List String) : List String :=
  (lines.map pyStrip).filter keepLine

/-- Model of Python `s.split(":", 1)` on the character list: the part before
the first `:` and the part after it. -/
def splitFirstColon : List Char → List Char × List Char
  | [] => ([], [])
  | c :: cs =>
    if c == ':' then ([], cs)
    else
      let r := splitFirstColon cs
      (c :: r.1, r.2)

/-- String-level wrapper of `splitFirstColon`. -/
def splitColon1 (s : String) : String × String :=
  let r := splitFirstColon s.data
  (⟨r.1⟩, ⟨r.2⟩)

/-- Model of Python `int(s)` on an already-stripped string: optional sign
followed by decimal digits (digit-grouping underscores are not modelled). -/
def digitsToNat : List Char → Option Nat
  | [] => none
  | l =>
    if l.all Char.isDigit then
      some (l.foldl (fun n c => 10 * n + (c.toNat - 48)) 0)
    else
      none

/-- Model of Python `int(s)` (returns `none` where Python raises
`ValueError`). -/
def pyInt? (s : String) : Option Int :=
  match s.data with
  | '-' :: rest => (digitsToNat rest).map (fun n => -(n : Int))
  | '+' :: rest => (digitsToNat rest).map (fun n => (n : Int))
  | l => (digitsToNat l).map (fun n => (n : Int))

/-! ## The Pair entity (src/src/frontier_cs/batch/pair.py) -/

/-- `Pair` from pair.py: a (solution, problem) combination to evaluate. -/
structure Pair where
  solution : String
  problem : String
deriving Repr, DecidableEq

/-- `Pair.id`: the derived identity string `f"{self.solution}:{self.problem}"`. -/
def Pair.id (p : Pair) : String :=
  p.solution ++ ":" ++ p.problem

/-- `Pair.__eq__`: equality of two pairs is equality of their `id` strings. -/
def pairEq (a b : Pair) : Bool :=
  a.id == b.id

/-- `Pair.__hash__`: `hash(self.id)`, parametrised by the runtime string-hash
function `h` (Python's string hash is opaque and process-seeded). -/
def pairHash (h : String → Int) (p : Pair) : Int :=
  h p.id

/-- The valid-character test of `_sanitize_name`: membership in the literal
`"abcdefghijklmnopqrstuvwxyz0123456789-"`. -/
def validChar (c : Char) : Bool :=
  ('a' ≤ c && c ≤ 'z') || ('0' ≤ c && c ≤ '9') || c == '-'

/-- The accumulation loop of `_sanitize_name` on the lowercased characters:
valid characters are kept, every maximal run of invalid characters collapses
to a single `-` (the `last_dash` flag is the first argument). -/
def cleanChars : Bool → List Char → List Char
  | _, [] => []
  | lastDash, c :: cs =>
    let ch := c.toLower
    if validChar ch then ch :: cleanChars (ch == '-') cs
    else if lastDash then cleanChars true cs
    else '-' :: cleanChars true cs

/-- Model of Python `s.strip("-")` on a character list. -/
def stripDashEnds (l : List Char) : List Char :=
  (l.dropWhile (· == '-')).rdropWhile (· == '-')

/-- `_sanitize_name` from pair.py: lowercase, collapse invalid runs to `-`,
strip dashes at both ends, fall back to `"job"` when nothing is left. -/
def sanitize_name (name : String) : String :=
  let sanitized := stripDashEnds (cleanChars false name.data)
  if sanitized.isEmpty then "job" else ⟨sanitized⟩

/-- `Pair.safe_name` from pair.py, parametrised by `md5hex`, the model of
`hashlib.md5(...).hexdigest()` (an external function the code only slices). -/
def Pair.safe_name (md5hex : String → String) (p : Pair) : String :=
  let base := p.solution ++ "-" ++ p.problem
  let digest := pyTake (md5hex base) 8
  let sanitized := sanitize_name base
  let suffix := "-" ++ digest
  let max_len := 63
  let available := max_len - suffix.length
  let trimmed := pyRstripDash (pyTake sanitized available)
  sanitize_name (trimmed ++ suffix)

/-! ## Expansion engine (pair.py `expand_pairs`, check_solutions.py
`compute_expected`) -/

/-- `expand_pairs` from pair.py.  The naming-policy functions
`sanitize_problem_name` and `get_model_prefix` (imported from
`frontier_cs.models`, outside the core) are the parameters `sanitizeProblem`
and `modelTokenOf`.  `pathExists` is `some f` when `validate_paths` is true
and a `solutions_dir` is supplied (`f` deciding `(solutions_dir / name).exists()`),
and `none` otherwise; `variants = none` models the Python default `None`. -/
def expand_pairs (sanitizeProblem modelTokenOf : String → String)
    (problems models : List String) (variants : Option (List Int))
    (pathExists : Option (String → Bool)) : List Pair :=
  let variants := variants.getD ([0] : List Int)
  problems.foldl (fun pairs problem =>
    let problem_name := sanitizeProblem problem
    models.foldl (fun pairs model =>
      let model_token := modelTokenOf model
      variants.foldl (fun pairs (variant_idx : Int) =>
        let suffix := if variant_idx == 0 then "" else "_" ++ toString variant_idx
        let solution_name := model_token ++ "_" ++ problem_name ++ suffix
        match pathExists with
        | some f => if !f solution_name then pairs
                    else pairs ++ [⟨solution_name, problem⟩]
        | none => pairs ++ [⟨solution_name, problem⟩]) pairs) pairs) []

/-- Python `dict` assignment `d[k] = v`: overwrite in place when the key is
present, append otherwise. -/
def dictInsert (d : List (String × String)) (k v : String) :
    List (String × String) :=
  if (d.map Prod.fst).contains k then
    d.map (fun p => if p.1 == k then (k, v) else p)
  else
    d ++ [(k, v)]

/-- `compute_expected` from check_solutions.py: the expected
solution-name → problem mapping, as an insertion-ordered dictionary. -/
def compute_expected (sanitizeProblem modelTokenOf : String → String)
    (problems models : List String) (variants : List Int) :
    List (String × String) :=
  problems.foldl (fun expected problem =>
    let problem_name := sanitizeProblem problem
    models.foldl (fun expected model =>
      let model_token := modelTokenOf model
      variants.foldl (fun expected (variant_idx : Int) =>
        let suffix := if variant_idx == 0 then "" else "_" ++ toString variant_idx
        let solution_name := model_token ++ "_" ++ problem_name ++ suffix
        dictInsert expected solution_name problem) expected) expected) []

/-! ## Registry readers -/

/-- `read_pairs_file` from pair.py, over the file's lines: blank and `#`
lines skipped, every other line split on the first `:` into a trimmed
(solution, problem) pair; a line without `:` raises `ValueError`, modelled
as `Except.error` carrying the message. -/
def read_pairs_file : List String → Except String (List Pair)
  | [] => .ok []
  | line :: rest =>
    let stripped := pyStrip line
    if !keepLine stripped then read_pairs_file rest
    else if !pyContainsChar stripped ':' then
      .error ("Invalid pair line (expected solution:problem): " ++ stripped)
    else
      let sp := splitColon1 stripped
      match read_pairs_file rest with
      | .ok pairs => .ok (⟨pyStrip sp.1, pyStrip sp.2⟩ :: pairs)
      | .error e => .error e

/-- The per-line normalization of `read_problems_file` in pair.py:
remove a literal leading `"research/"` when present. -/
def batchNormalizeProblem (line : String) : String :=
  if pyStartsWith line "research/" then
    pyDrop line ("research/" : String).length
  else line

/-- `read_problems_file` from pair.py: surviving lines, each normalized by
`batchNormalizeProblem`. -/
def read_problems_file : List String → List String
  | [] => []
  | line :: rest =>
    let stripped := pyStrip line
    if !keepLine stripped then read_problems_file rest
    else batchNormalizeProblem stripped :: read_problems_file rest

/-- The prefix normalization of `read_problem_list` in check_solutions.py:
try `"research/problems/"` then `"problems/"`, strip the first that matches
(the Python loop `break`s after the first hit). -/
def stripProblemsPrefixes (line : String) : String :=
  if pyStartsWith line "research/problems/" then
    pyDrop line ("research/problems/" : String).length
  else if pyStartsWith line "problems/" then
    pyDrop line ("problems/" : String).length
  else line

/-- The line loop of `read_problem_list` in check_solutions.py. -/
def readProblemListLoop : List String → List String
  | [] => []
  | line :: rest =>
    let stripped := pyStrip line
    if !keepLine stripped then readProblemListLoop rest
    else stripProblemsPrefixes stripped :: readProblemListLoop rest

/-- `read_problem_list` from check_solutions.py (`none` = absent file,
which returns the empty list). -/
def read_problem_list : Option (List String) → List String
  | none => []
  | some lines => readProblemListLoop lines

/-- The explicit-indices path shared by both variant readers: parse every
surviving line as an integer, drop the lines that fail, default to `[0]`
when nothing parses. -/
def explicitIndices (lines : List String) : List Int :=
  let indices := lines.filterMap pyInt?
  if indices.isEmpty then [0] else indices

/-- `read_variant_indices` from check_solutions.py (`none` = absent file):
one surviving line parsing as `n` is a count (`range n` when `n > 0`, else
`[0]`); anything else is the explicit-indices path. -/
def read_variant_indices : Option (List String) → List Int
  | none => [0]
  | some fileLines =>
    match surviving fileLines with
    | [] => [0]
    | [single] =>
      match pyInt? single with
      | some count =>
        if count > 0 then (List.range count.toNat).map Int.ofNat else [0]
      | none => explicitIndices [single]
    | lines => explicitIndices lines

/-- `read_variants_file` from pair.py (`none` = absent file): every
surviving line is parsed as an explicit index, failures skipped, `[0]` when
nothing parses. -/
def read_variants_file : Option (List String) → List Int
  | none => [0]
  | some fileLines => explicitIndices (surviving fileLines)

/-! ## Solution config readers -/

/-- The manual line scan shared by check_solutions.py's
`read_solution_config` and pair.py's fallback branch: the first line whose
stripped form starts with `"problem:"` yields the trimmed part after the
first colon. -/
def configLineScan : List String → Option String
  | [] => none
  | line :: rest =>
    let stripped := pyStrip line
    if pyStartsWith stripped "problem:" then
      some (pyStrip (splitColon1 stripped).2)
    else configLineScan rest

/-- A parsed YAML mapping, as pair.py's `read_solution_config` consumes it:
`Except.error` = `yaml.safe_load` (or the import) raised; `.ok none` = the
parse succeeded but the document is falsy or not a dict; `.ok (some d)` =
a truthy dict, modelled as an association list with unique keys. -/
abbrev YamlResult := Except Unit (Option (List (String × String)))

/-- Python `dict.get`: the first binding of the key, `None` when absent. -/
def yamlGet (d : List (String × String)) (k : String) : Option String :=
  (d.find? (fun p => p.1 == k)).map Prod.snd

/-- `read_solution_config` from pair.py, over the config file's content
(`none` = `config.yaml` absent) and the external `yaml.safe_load` modelled
by `yamlLoad`.  The fallback line scan runs only when the structured parse
raises. -/
def read_solution_config (yamlLoad : List String → YamlResult)
    (configFile : Option (List String)) : Option String :=
  match configFile with
  | none => none
  | some content =>
    match yamlLoad content with
    | .ok (some config) => yamlGet config "problem"
    | .ok none => none
    | .error _ => configLineScan content

/-- `read_solution_config` from check_solutions.py: no structured parse,
just the line scan. -/
def read_solution_config_cs (configFile : Option (List String)) :
    Option String :=
  match configFile with
  | none => none
  | some content => configLineScan content

/-! ## Coverage reconciler (check_solutions.py `main`, lines 242–251 and
313–325).  The actual-artifacts state is the mapping produced by
`collect_actual`: directory name → declared problem (`none` when
`read_solution_config` found no mapping). -/

/-- The keys of an association-list mapping. -/
def keysOf {α : Type} (m : List (String × α)) : List String :=
  m.map Prod.fst

/-- `generated = expected_set & actual_set` (membership view of the set
intersection). -/
def generatedOf (expected : List (String × String))
    (actual : List (String × Option String)) : List String :=
  (keysOf expected).filter (fun k => (keysOf actual).contains k)

/-- `missing = expected_set - actual_set`. -/
def missingOf (expected : List (String × String))
    (actual : List (String × Option String)) : List String :=
  (keysOf expected).filter (fun k => !(keysOf actual).contains k)

/-- `extra = actual_set - expected_set`. -/
def extraOf (expected : List (String × String))
    (actual : List (String × Option String)) : List String :=
  (keysOf actual).filter (fun k => !(keysOf expected).contains k)

/-- `no_config = {name for name, problem in actual.items() if problem is None}`. -/
def noConfigOf (actual : List (String × Option String)) : List String :=
  (actual.filter (fun p => p.2.isNone)).map Prod.fst

/-- The exit code of check_solutions.py's `main`:
`1 if (no_config or total_missing > 0) else 0`. -/
def exit_code (expected : List (String × String))
    (actual : List (String × Option String)) : Nat :=
  if !(noConfigOf actual).isEmpty || (missingOf expected actual).length > 0
  then 1 else 0

/-! ## Supporting lemmas -/

/-- A string is a Python-style prefix of itself followed by anything. -/
theorem pyStartsWith_append (p t : String) : pyStartsWith (p ++ t) p = true := by
  simp [pyStartsWith, String.data_append, List.isPrefixOf_iff_prefix]

/-- Dropping the length of a leading literal removes exactly that literal. -/
theorem pyDrop_append (p t : String) : pyDrop (p ++ t) p.length = t := by
  apply String.ext
  show List.drop p.length ((p ++ t).data) = t.data
  rw [String.data_append]
  exact List.drop_left p.data t.data

/-- Appending a non-empty literal changes a string (by length). -/
theorem ne_append_one (s t : String) (h : t.length ≠ 0) : s ≠ s ++ t := by
  intro hs
  have := congrArg String.length hs
  rw [String.length_append] at this
  omega

/-- Unfolding `surviving` over the first line of a file. -/
theorem surviving_cons (line : String) (rest : List String) :
    surviving (line :: rest) =
      if keepLine (pyStrip line) then pyStrip line :: surviving rest
      else surviving rest := by
  simp [surviving, List.filter_cons]

/-- The check-script problem-list loop maps the prefix normalization over
the surviving lines. -/
theorem readProblemListLoop_eq (lines : List String) :
    readProblemListLoop lines = (surviving lines).map stripProblemsPrefixes := by
  induction lines with
  | nil => simp [readProblemListLoop, surviving]
  | cons line rest ih =>
    rw [readProblemListLoop, surviving_cons]
    by_cases hk : keepLine (pyStrip line) = true <;> simp [hk, ih]

/-- The batch problem-file reader maps the batch normalization over the
surviving lines. -/
theorem read_problems_file_eq (lines : List String) :
    read_problems_file lines = (surviving lines).map batchNormalizeProblem := by
  induction lines with
  | nil => simp [read_problems_file, surviving]
  | cons line rest ih =>
    rw [read_problems_file, surviving_cons]
    by_cases hk : keepLine (pyStrip line) = true <;> simp [hk, ih]

/-- When no line of the content carries a `problem:` mapping, the config
line scan finds nothing. -/
theorem configLineScan_eq_none (content : List String)
    (h : ∀ line ∈ content, pyStartsWith (pyStrip line) "problem:" = false) :
    configLineScan content = none := by
  induction content with
  | nil => rfl
  | cons line rest ih =>
    rw [configLineScan]
    simp only [h line (by simp)]
    exact ih (fun l hl => h l (by simp [hl]))

/-- The variant-index algorithm exactly as the specification and claim C2
state it, for comparison with `read_variant_indices`:
absent file → `[0]`; exactly one surviving line parsing as `n` → `range n`
when `n > 0`, else `[0]`; otherwise parse every surviving line, drop
failures, `[0]` when nothing parses. -/
def specVariantIndices : Option (List String) → List Int
  | none => [0]
  | some fileLines =>
    let lines := surviving fileLines
    let parsed := lines.filterMap pyInt?
    let explicitResult := if parsed.isEmpty then [0] else parsed
    match lines with
    | [single] =>
      match pyInt? single with
      | some n => if 0 < n then (List.range n.toNat).map Int.ofNat else [0]
      | none => explicitResult
    | _ => explicitResult

/-! ## Claim theorems -/

/-- Claim C9: `Pair` equality and hashing are determined solely by the
derived `id` string `"{solution}:{problem}"`: two pairs compare equal
exactly when their ids are equal, and equal ids give equal hashes, for any
runtime string-hash function. -/
theorem claim_C9_pair_identity (h : String → Int) (a b : Pair) :
    (pairEq a b = true ↔ a.id = b.id) ∧
    (a.id = b.id → pairHash h a = pairHash h b) := by
  refine ⟨?_, ?_⟩
  · simp [pairEq]
  · intro hid
    simp [pairHash, hid]

/-- Claim C9 witness: two pairs with equal ids compare equal and hash
equal under a concrete hash function. -/
theorem claim_C9_pair_identity_witness :
    (pairEq ⟨"a:b", "c"⟩ ⟨"a", "b:c"⟩ = true ↔
      (Pair.mk "a:b" "c").id = (Pair.mk "a" "b:c").id) ∧
    ((Pair.mk "a:b" "c").id = (Pair.mk "a" "b:c").id →
      pairHash (fun s => (s.length : Int)) ⟨"a:b", "c"⟩ =
        pairHash (fun s => (s.length : Int)) ⟨"a", "b:c"⟩) :=
  claim_C9_pair_identity (fun s => (s.length : Int)) ⟨"a:b", "c"⟩ ⟨"a", "b:c"⟩

/-- Claim C10: because `id` is the unescaped concatenation
`solution ++ ":" ++ problem`, the pairs `("a:b", "c")` and `("a", "b:c")`
have different components yet compare equal and hash equal under every hash
function. -/
theorem claim_C10_colon_ambiguity :
    pairEq ⟨"a:b", "c"⟩ ⟨"a", "b:c"⟩ = true ∧
    (Pair.mk "a:b" "c").solution ≠ (Pair.mk "a" "b:c").solution ∧
    (Pair.mk "a:b" "c").problem ≠ (Pair.mk "a" "b:c").problem ∧
    (∀ h : String → Int,
      pairHash h ⟨"a:b", "c"⟩ = pairHash h ⟨"a", "b:c"⟩) := by
  refine ⟨by decide, by decide, by decide, fun h => ?_⟩
  have hid : (Pair.mk "a:b" "c").id = (Pair.mk "a" "b:c").id := by decide
  simp [pairHash, hid]

/-- Claim C3 counterexample: an actual directory entry `"x"` with no config
mapping whose name equals an expected identifier appears in `generated`
(the claim asserts it is excluded from `generated`). -/
theorem claim_C3_counterexample :
    "x" ∈ generatedOf [("x", "p")] [("x", (none : Option String))] ∧
    "x" ∈ noConfigOf [("x", (none : Option String))] := by
  decide

/-- Claim C3 amended: an actual entry with no config mapping is placed in
the unconfigured category, and when its directory name equals an expected
identifier it additionally appears in the generated category (`generated`
is the plain key intersection; the entry is not excluded from it). -/
theorem claim_C3_amended (expected : List (String × String))
    (actual : List (String × Option String)) (name : String)
    (h1 : (name, (none : Option String)) ∈ actual)
    (h2 : name ∈ keysOf expected) :
    name ∈ noConfigOf actual ∧ name ∈ generatedOf expected actual := by
  constructor
  · refine List.mem_map.mpr ⟨(name, none), ?_, rfl⟩
    exact List.mem_filter.mpr ⟨h1, rfl⟩
  · refine List.mem_filter.mpr ⟨h2, ?_⟩
    have : name ∈ keysOf actual := List.mem_map.mpr ⟨(name, none), h1, rfl⟩
    simpa [List.contains] using List.elem_iff.mpr this

/-- Claim C3 amended witness: the amended statement at the concrete state
with expected `{x ↦ p}` and actual `{x ↦ no mapping}`. -/
theorem claim_C3_amended_witness :
    "x" ∈ noConfigOf [("x", (none : Option String))] ∧
    "x" ∈ generatedOf [("y", "q"), ("x", "p")]
      [("x", (none : Option String))] :=
  claim_C3_amended [("y", "q"), ("x", "p")] [("x", none)] "x"
    (by decide) (by decide)

/-- Claim C6: the standalone coverage check exits with status 0 exactly when
the missing set (expected keys minus actual keys) and the unconfigured set
(actual names with no problem mapping) are both empty, and exits with the
nonzero status 1 in every other case. -/
theorem claim_C6_exit_code (expected : List (String × String))
    (actual : List (String × Option String)) :
    (exit_code expected actual = 0 ↔
      missingOf expected actual = [] ∧ noConfigOf actual = []) ∧
    (exit_code expected actual = 1 ↔
      ¬(missingOf expected actual = [] ∧ noConfigOf actual = [])) ∧
    (missingOf expected actual = [] ↔
      ∀ k ∈ keysOf expected, k ∈ keysOf actual) ∧
    (noConfigOf actual = [] ↔ ∀ pr ∈ actual, pr.2 ≠ none) := by
  have hm : missingOf expected actual = [] ↔
      ∀ k ∈ keysOf expected, k ∈ keysOf actual := by
    simp [missingOf, List.filter_eq_nil_iff, List.contains, List.elem_iff]
  have hn : noConfigOf actual = [] ↔ ∀ pr ∈ actual, pr.2 ≠ none := by
    simp [noConfigOf, List.filter_eq_nil_iff, Option.isNone_iff_eq_none]
  have hboth : (exit_code expected actual = 0 ↔
      missingOf expected actual = [] ∧ noConfigOf actual = []) ∧
      (exit_code expected actual = 1 ↔
        ¬(missingOf expected actual = [] ∧ noConfigOf actual = [])) := by
    rcases hnc : noConfigOf actual with _ | ⟨x, xs⟩ <;>
      rcases hms : missingOf expected actual with _ | ⟨y, ys⟩ <;>
      simp [exit_code, hnc, hms]
  exact ⟨hboth.1, hboth.2, hm, hn⟩

/-- Claim C2 counterexample: the batch variant reader `read_variants_file`
on the sole line `"5"` returns `[5]`, not the `range`-expansion
`[0,1,2,3,4]` the claim asserts for every variant-index source. -/
theorem claim_C2_counterexample :
    read_variants_file (some ["5"]) = [5] ∧
    read_variants_file (some ["5"]) ≠ [0, 1, 2, 3, 4] := by
  decide

/-- Claim C2 amended: the check-script reader `read_variant_indices`
follows the claimed algorithm (absent → `[0]`; a single surviving line
parsing as `n` → `range n` when `n > 0`, else `[0]`; otherwise explicit
indices with unparseable lines dropped and `[0]` when none parses), but the
batch reader `read_variants_file` applies no single-line count rule: every
surviving line is an explicit index (failures dropped, `[0]` when nothing
parses), so `"5"` yields `[5]` there. -/
theorem claim_C2_amended :
    (∀ src, read_variant_indices src = specVariantIndices src) ∧
    read_variants_file none = [0] ∧
    (∀ fileLines, read_variants_file (some fileLines) =
      if ((surviving fileLines).filterMap pyInt?).isEmpty then [0]
      else (surviving fileLines).filterMap pyInt?) ∧
    read_variant_indices (some ["5"]) = [0, 1, 2, 3, 4] ∧
    read_variant_indices (some ["0", "2", "5"]) = [0, 2, 5] ∧
    read_variant_indices (some ["abc"]) = [0] ∧
    read_variants_file (some ["5"]) = [5] := by
  refine ⟨?_, rfl, fun fileLines => rfl, by decide, by decide, by decide,
    by decide⟩
  intro src
  match src with
  | none => rfl
  | some fileLines =>
    rw [read_variant_indices, specVariantIndices]
    match h : surviving fileLines with
    | [] => simp [explicitIndices]
    | [single] =>
      match pyInt? single with
      | some n => rfl
      | none => rfl
    | a :: b :: rest => rfl

/-- Claim C5 counterexample: the batch problem reader `read_problems_file`
returns the line `"problems/foo"` unchanged instead of stripping the
`"problems/"` prefix as the claim asserts. -/
theorem claim_C5_counterexample :
    read_problems_file ["problems/foo"] = ["problems/foo"] ∧
    read_problems_file ["problems/foo"] ≠ ["foo"] := by
  decide

/-- Claim C5 amended: the check-script reader strips a literal leading
`"research/problems/"` or `"problems/"` from each surviving line and
returns other lines unchanged, while the batch reader strips only a
literal leading `"research/"` (so it returns `"problems/…"` lines
unchanged and turns `"research/problems/…"` into `"problems/…"`). -/
theorem claim_C5_amended :
    (∀ t, stripProblemsPrefixes ("research/problems/" ++ t) = t) ∧
    (∀ t, stripProblemsPrefixes ("problems/" ++ t) = t) ∧
    (∀ line, pyStartsWith line "research/problems/" = false →
      pyStartsWith line "problems/" = false →
      stripProblemsPrefixes line = line) ∧
    (∀ src, read_problem_list src =
      (surviving (src.getD [])).map stripProblemsPrefixes) ∧
    (∀ t, batchNormalizeProblem ("research/" ++ t) = t) ∧
    (∀ t, batchNormalizeProblem ("problems/" ++ t) = "problems/" ++ t) ∧
    (∀ line, pyStartsWith line "research/" = false →
      batchNormalizeProblem line = line) ∧
    (∀ fileLines, read_problems_file fileLines =
      (surviving fileLines).map batchNormalizeProblem) := by
  refine ⟨?_, ?_, ?_, ?_, ?_, ?_, ?_, read_problems_file_eq⟩
  · intro t
    rw [stripProblemsPrefixes]
    simp [pyStartsWith_append, pyDrop_append]
  · intro t
    have hne : pyStartsWith ("problems/" ++ t) "research/problems/" = false := rfl
    rw [stripProblemsPrefixes]
    simp [hne, pyStartsWith_append, pyDrop_append]
  · intro line h1 h2
    simp [stripProblemsPrefixes, h1, h2]
  · intro src
    match src with
    | none => rfl
    | some lines => exact readProblemListLoop_eq lines
  · intro t
    rw [batchNormalizeProblem]
    simp [pyStartsWith_append, pyDrop_append]
  · intro t
    have hne : pyStartsWith ("problems/" ++ t) "research/" = false := rfl
    simp [batchNormalizeProblem, hne]
  · intro line h1
    simp [batchNormalizeProblem, h1]

/-- On pair files whose surviving lines all contain `:`, the reader
succeeds with one trimmed pair per surviving line, in order. -/
theorem read_pairs_file_ok (lines : List String)
    (h : ∀ l ∈ surviving lines, pyContainsChar l ':' = true) :
    read_pairs_file lines = .ok ((surviving lines).map (fun l =>
      ⟨pyStrip (splitColon1 l).1, pyStrip (splitColon1 l).2⟩)) := by
  induction lines with
  | nil => rfl
  | cons line rest ih =>
    rw [surviving_cons] at h ⊢
    rw [read_pairs_file]
    by_cases hk : keepLine (pyStrip line) = true
    · have hc : pyContainsChar (pyStrip line) ':' = true := by
        refine h _ ?_
        simp [hk]
      have hrest := ih (fun l hl => h l (by simp [hk, hl]))
      simp [hk, hc, hrest, splitColon1]
    · simp only [Bool.not_eq_true] at hk
      have hrest := ih (fun l hl => h l (by simp [hk, hl]))
      simp [hk, hrest]

/-- A surviving line without `:` makes the pair reader fail with the parse
error for the first such line; no partial result is returned. -/
theorem read_pairs_file_error (lines : List String) :
    ∀ pre bad post, surviving lines = pre ++ bad :: post →
    (∀ l ∈ pre, pyContainsChar l ':' = true) →
    pyContainsChar bad ':' = false →
    read_pairs_file lines =
      .error ("Invalid pair line (expected solution:problem): " ++ bad) := by
  induction lines with
  | nil =>
    intro pre bad post hsv
    exact absurd hsv (by simp [surviving])
  | cons line rest ih =>
    intro pre bad post hsv hpre hbad
    rw [surviving_cons] at hsv
    rw [read_pairs_file]
    by_cases hk : keepLine (pyStrip line) = true
    · rw [if_pos hk] at hsv
      match pre, hsv with
      | [], hsv =>
        have hb : pyStrip line = bad := (List.cons.injEq _ _ _ _ ▸ hsv).1
        subst hb
        simp [hk, hbad]
      | p :: pre', hsv =>
        have hp : pyStrip line = p := (List.cons.injEq _ _ _ _ ▸ hsv).1
        have hrest : surviving rest = pre' ++ bad :: post :=
          (List.cons.injEq _ _ _ _ ▸ hsv).2
        have hc : pyContainsChar (pyStrip line) ':' = true := by
          rw [hp]; exact hpre p (by simp)
        have herr := ih pre' bad post hrest
          (fun l hl => hpre l (by simp [hl])) hbad
        simp [hk, hc, herr]
    · simp only [Bool.not_eq_true] at hk
      rw [if_neg (by simp [hk])] at hsv
      have herr := ih pre bad post hsv hpre hbad
      simp [hk, herr]

/-- Claim C7: every surviving pair-file line containing `:` is split on the
first `:` into a trimmed (solution, problem) pair, in line order; a
surviving line without `:` makes the reader raise a parse error carrying
that line, with no partial result; includes the specification's round-trip
example. -/
theorem claim_C7_pairs_file (fileLines : List String) :
    ((∀ l ∈ surviving fileLines, pyContainsChar l ':' = true) →
      read_pairs_file fileLines = .ok ((surviving fileLines).map (fun l =>
        ⟨pyStrip (splitColon1 l).1, pyStrip (splitColon1 l).2⟩))) ∧
    (∀ pre bad post, surviving fileLines = pre ++ bad :: post →
      (∀ l ∈ pre, pyContainsChar l ':' = true) →
      pyContainsChar bad ':' = false →
      read_pairs_file fileLines =
        .error ("Invalid pair line (expected solution:problem): " ++ bad)) ∧
    read_pairs_file ["s1:p1", "# comment", "s2:p2"] =
      .ok [⟨"s1", "p1"⟩, ⟨"s2", "p2"⟩] ∧
    read_pairs_file ["s1:p1", "no-colon-here", "s2:p2"] =
      .error "Invalid pair line (expected solution:problem): no-colon-here" :=
  ⟨read_pairs_file_ok fileLines, read_pairs_file_error fileLines,
    by rfl, by rfl⟩

/-- Claim C8: the config reader is total (modelled as an `Option`-valued
function): an absent record gives no mapping; a structured-parse failure
falls back to the line scan; a successful structured parse yields the
record's `problem` field (no mapping when the field is absent, no fallback
when the parse merely yields a non-dict); the line scan returns the trimmed
value after the first colon of the first `problem:` line and no mapping
when no such line exists.  The check-script variant is the bare line scan. -/
theorem claim_C8_config_reader (yamlLoad : List String → YamlResult)
    (content : List String) (d : List (String × String)) :
    read_solution_config yamlLoad none = none ∧
    read_solution_config_cs none = none ∧
    (yamlLoad content = .error () →
      read_solution_config yamlLoad (some content) = configLineScan content) ∧
    (yamlLoad content = .ok (some d) →
      read_solution_config yamlLoad (some content) = yamlGet d "problem") ∧
    (yamlLoad content = .ok none →
      read_solution_config yamlLoad (some content) = none) ∧
    read_solution_config_cs (some content) = configLineScan content ∧
    (∀ line rest, pyStartsWith (pyStrip line) "problem:" = true →
      configLineScan (line :: rest) =
        some (pyStrip (splitColon1 (pyStrip line)).2)) ∧
    (∀ line rest, pyStartsWith (pyStrip line) "problem:" = false →
      configLineScan (line :: rest) = configLineScan rest) ∧
    ((∀ line ∈ content, pyStartsWith (pyStrip line) "problem:" = false) →
      configLineScan content = none) ∧
    configLineScan ["# config", "problem: flash_attn"] = some "flash_attn" := by
  refine ⟨rfl, rfl, ?_, ?_, ?_, rfl, ?_, ?_, configLineScan_eq_none content,
    by decide⟩
  · intro hy
    simp [read_solution_config, hy]
  · intro hy
    simp [read_solution_config, hy]
  · intro hy
    simp [read_solution_config, hy]
  · intro line rest hp
    simp [configLineScan, hp, splitColon1]
  · intro line rest hp
    simp [configLineScan, hp]

/-- Appending one element per fold step is mapping. -/
theorem foldl_append_singleton {α β : Type} (g : α → β) (l : List α) :
    ∀ init, l.foldl (fun acc x => acc ++ [g x]) init = init ++ l.map g := by
  induction l with
  | nil => intro init; simp
  | cons x xs ih =>
    intro init
    rw [List.foldl_cons, ih]
    simp

/-- Appending a list per fold step is flat-mapping. -/
theorem foldl_append_flatMap {α β : Type} (f : α → List β) (l : List α) :
    ∀ init, l.foldl (fun acc x => acc ++ f x) init = init ++ l.flatMap f := by
  induction l with
  | nil => intro init; simp
  | cons x xs ih =>
    intro init
    rw [List.foldl_cons, ih]
    simp

/-- With path validation disabled, `expand_pairs` is the plain Cartesian
expansion problems × models × variants, in order. -/
theorem expand_pairs_no_validation (sanP mTok : String → String)
    (problems models : List String) (variants : List Int) :
    expand_pairs sanP mTok problems models (some variants) none =
      problems.flatMap (fun problem => models.flatMap (fun model =>
        variants.map (fun v =>
          ⟨mTok model ++ "_" ++ sanP problem ++
            (if v == 0 then "" else "_" ++ toString v), problem⟩))) := by
  have h1 : ∀ (model problem : String) (init : List Pair),
      variants.foldl (fun pairs (variant_idx : Int) =>
        pairs ++ [⟨mTok model ++ "_" ++ sanP problem ++
          (if variant_idx == 0 then "" else "_" ++ toString variant_idx),
          problem⟩]) init
      = init ++ variants.map (fun v =>
          ⟨mTok model ++ "_" ++ sanP problem ++
            (if v == 0 then "" else "_" ++ toString v), problem⟩) := by
    intro model problem init
    exact foldl_append_singleton _ variants init
  have h2 : ∀ (problem : String) (init : List Pair),
      models.foldl (fun pairs model =>
        variants.foldl (fun pairs (variant_idx : Int) =>
          pairs ++ [⟨mTok model ++ "_" ++ sanP problem ++
            (if variant_idx == 0 then "" else "_" ++ toString variant_idx),
            problem⟩]) pairs) init
      = init ++ models.flatMap (fun model => variants.map (fun v =>
          ⟨mTok model ++ "_" ++ sanP problem ++
            (if v == 0 then "" else "_" ++ toString v), problem⟩)) := by
    intro problem init
    have hb := foldl_append_flatMap (fun model => variants.map (fun v =>
      (⟨mTok model ++ "_" ++ sanP problem ++
        (if v == 0 then "" else "_" ++ toString v), problem⟩ : Pair))) models init
    rw [← hb]
    congr 1
    funext pairs model
    exact h1 model problem pairs
  have hb := foldl_append_flatMap (fun problem => models.flatMap (fun model =>
    variants.map (fun v =>
      (⟨mTok model ++ "_" ++ sanP problem ++
        (if v == 0 then "" else "_" ++ toString v), problem⟩ : Pair)))) problems []
  simp only [List.nil_append] at hb
  show problems.foldl (fun pairs problem =>
    models.foldl (fun pairs model =>
      variants.foldl (fun pairs (variant_idx : Int) =>
        pairs ++ [(⟨mTok model ++ "_" ++ sanP problem ++
          (if variant_idx == 0 then "" else "_" ++ toString variant_idx),
          problem⟩ : Pair)]) pairs) pairs) [] =
    problems.flatMap (fun problem => models.flatMap (fun model =>
      variants.map (fun v =>
        (⟨mTok model ++ "_" ++ sanP problem ++
          (if v == 0 then "" else "_" ++ toString v), problem⟩ : Pair))))
  rw [← hb]
  congr 1
  funext pairs problem
  exact h2 problem pairs

/-- Claim C1: with path validation disabled, the expansion produces, for
each (problem, model, variant) triple in order, exactly the solution name
`modelToken ++ "_" ++ problemToken` with no suffix for variant 0 and suffix
`"_" ++ v` otherwise, mapped to the source problem; in particular
problems `["p"]` × models `["m"]` × variants `[0,1]` gives exactly two
identifiers, one with no variant suffix and one ending in `"_1"`, both
mapped to `"p"`, in both the list view (`expand_pairs`) and the dictionary
view (`compute_expected`). -/
theorem claim_C1_expansion (sanP mTok : String → String)
    (problems models : List String) (variants : List Int) :
    (expand_pairs sanP mTok problems models (some variants) none =
      problems.flatMap (fun problem => models.flatMap (fun model =>
        variants.map (fun v =>
          ⟨mTok model ++ "_" ++ sanP problem ++
            (if v == 0 then "" else "_" ++ toString v), problem⟩)))) ∧
    (expand_pairs sanP mTok ["p"] ["m"] (some [0, 1]) none =
      [⟨mTok "m" ++ "_" ++ sanP "p", "p"⟩,
       ⟨mTok "m" ++ "_" ++ sanP "p" ++ "_1", "p"⟩]) ∧
    (compute_expected sanP mTok ["p"] ["m"] [0, 1] =
      [(mTok "m" ++ "_" ++ sanP "p", "p"),
       (mTok "m" ++ "_" ++ sanP "p" ++ "_1", "p")]) := by
  have hne : ∀ s : String, ¬(s ++ "_1" = s) := by
    intro s h
    have hlen := congrArg String.length h
    rw [String.length_append] at hlen
    have h2 : ("_1" : String).length = 2 := rfl
    omega
  have h1s : ("_" : String) ++ toString (1 : Int) = "_1" := rfl
  refine ⟨expand_pairs_no_validation sanP mTok problems models variants, ?_, ?_⟩
  · rw [expand_pairs_no_validation]
    simp only [List.flatMap_cons, List.flatMap_nil, List.map_cons,
      List.map_nil, List.append_nil, beq_self_eq_true, if_true, h1s]
    norm_num [String.append_empty]
  · simp only [compute_expected, dictInsert, List.foldl_cons, List.foldl_nil,
      beq_self_eq_true, if_true, h1s]
    norm_num [String.append_empty, List.contains, hne]

/-- The accumulation loop never lengthens its input. -/
theorem cleanChars_length (l : List Char) :
    ∀ b, (cleanChars b l).length ≤ l.length := by
  induction l with
  | nil => intro b; simp [cleanChars]
  | cons c cs ih =>
    intro b
    rw [cleanChars]
    by_cases hv : validChar c.toLower = true
    · simp only [hv, if_true, List.length_cons]
      exact Nat.succ_le_succ (ih _)
    · simp only [Bool.not_eq_true] at hv
      simp only [hv, Bool.false_eq_true, if_false]
      by_cases hb : b = true
      · simp only [hb, if_true, List.length_cons]
        exact le_trans (ih true) (Nat.le_succ _)
      · simp only [Bool.not_eq_true] at hb
        simp only [hb, Bool.false_eq_true, if_false, List.length_cons]
        exact Nat.succ_le_succ (ih true)

/-- Every character the accumulation loop emits is in the valid set
(kept characters are valid by the test; emitted separators are `-`). -/
theorem cleanChars_valid (l : List Char) :
    ∀ b c, c ∈ cleanChars b l → validChar c = true := by
  induction l with
  | nil => intro b c h; simp [cleanChars] at h
  | cons a cs ih =>
    intro b c h
    rw [cleanChars] at h
    by_cases hv : validChar a.toLower = true
    · simp only [hv, if_true, List.mem_cons] at h
      rcases h with h | h
      · rw [h]; exact hv
      · exact ih _ c h
    · simp only [Bool.not_eq_true] at hv
      simp only [hv, Bool.false_eq_true, if_false] at h
      by_cases hb : b = true
      · simp only [hb, if_true] at h
        exact ih true c h
      · simp only [Bool.not_eq_true] at hb
        simp only [hb, Bool.false_eq_true, if_false, List.mem_cons] at h
        rcases h with h | h
        · rw [h]; decide
        · exact ih true c h

/-- Stripping dashes at both ends yields a sublist. -/
theorem stripDashEnds_sublist (l : List Char) : (stripDashEnds l).Sublist l :=
  ((List.rdropWhile_prefix _ _).sublist).trans (List.dropWhile_sublist _)

/-- Stripping dashes at both ends never lengthens. -/
theorem stripDashEnds_length (l : List Char) :
    (stripDashEnds l).length ≤ l.length :=
  (stripDashEnds_sublist l).length_le

/-- Stripping dashes at both ends keeps only original characters. -/
theorem stripDashEnds_mem (l : List Char) {c : Char}
    (h : c ∈ stripDashEnds l) : c ∈ l :=
  (stripDashEnds_sublist l).subset h

/-- After stripping, a remaining first character is not a dash. -/
theorem stripDashEnds_head (l : List Char) (c : Char)
    (h : (stripDashEnds l).head? = some c) : (c == '-') = false := by
  rw [stripDashEnds] at h
  have hne : List.rdropWhile (fun x => x == '-')
      (List.dropWhile (fun x => x == '-') l) ≠ [] := by
    intro hnil
    rw [hnil] at h
    simp at h
  obtain ⟨t, ht⟩ := List.rdropWhile_prefix (fun x => x == '-')
    (List.dropWhile (fun x => x == '-') l)
  have hmne : List.dropWhile (fun x => x == '-') l ≠ [] := by
    intro hnil
    rw [hnil, List.rdropWhile_nil] at hne
    exact hne rfl
  have hhead : (List.dropWhile (fun x => x == '-') l).head? = some c := by
    rw [← ht, List.head?_append, h]
    rfl
  have hnot := List.head_dropWhile_not (fun x => x == '-') l hmne
  rw [List.head?_eq_head hmne] at hhead
  have hc : (List.dropWhile (fun x => x == '-') l).head hmne = c := by
    injection hhead
  rw [hc] at hnot
  exact hnot

/-- After stripping, a remaining last character is not a dash. -/
theorem stripDashEnds_getLast (l : List Char) (c : Char)
    (h : (stripDashEnds l).getLast? = some c) : (c == '-') = false := by
  rw [stripDashEnds] at h
  have hne : List.rdropWhile (fun x => x == '-')
      (List.dropWhile (fun x => x == '-') l) ≠ [] := by
    intro hnil
    rw [hnil] at h
    simp at h
  have hnot := List.rdropWhile_last_not (fun x => x == '-')
    (List.dropWhile (fun x => x == '-') l) hne
  rw [List.getLast?_eq_getLast _ hne] at h
  have hc : (List.rdropWhile (fun x => x == '-')
      (List.dropWhile (fun x => x == '-') l)).getLast hne = c := by
    injection h
  rw [hc] at hnot
  simpa using hnot

/-- `_sanitize_name` never lengthens its input beyond the fallback
`\"job\"` (length 3). -/
theorem sanitize_name_length (name : String) :
    (sanitize_name name).length ≤ max name.length 3 := by
  rw [sanitize_name]
  by_cases he : (stripDashEnds (cleanChars false name.data)).isEmpty = true
  · simp only [he, if_true]
    have : ("job" : String).length = 3 := rfl
    omega
  · simp only [he, Bool.false_eq_true, if_false]
    have h1 : (String.mk (stripDashEnds (cleanChars false name.data))).length
        = (stripDashEnds (cleanChars false name.data)).length := rfl
    have h2 := stripDashEnds_length (cleanChars false name.data)
    have h3 := cleanChars_length name.data false
    have h4 : name.length = name.data.length := rfl
    omega

/-- Every character `_sanitize_name` returns is in `[a-z0-9-]`. -/
theorem sanitize_name_valid (name : String) :
    ∀ c ∈ (sanitize_name name).data, validChar c = true := by
  rw [sanitize_name]
  by_cases he : (stripDashEnds (cleanChars false name.data)).isEmpty = true
  · simp only [he, if_true]
    decide
  · simp only [he, Bool.false_eq_true, if_false]
    intro c hc
    exact cleanChars_valid name.data false c (stripDashEnds_mem _ hc)

/-- `_sanitize_name` output never starts with `-`. -/
theorem sanitize_name_head (name : String) (c : Char)
    (h : (sanitize_name name).data.head? = some c) : (c == '-') = false := by
  rw [sanitize_name] at h
  by_cases he : (stripDashEnds (cleanChars false name.data)).isEmpty = true
  · rw [if_pos he] at h
    have : c = 'j' := by
      have : ("job" : String).data.head? = some 'j' := rfl
      rw [this] at h
      injection h with h2
      exact h2.symm
    rw [this]
    decide
  · rw [if_neg (by simp [he])] at h
    exact stripDashEnds_head _ c h

/-- `_sanitize_name` output never ends with `-`. -/
theorem sanitize_name_getLast (name : String) (c : Char)
    (h : (sanitize_name name).data.getLast? = some c) : (c == '-') = false := by
  rw [sanitize_name] at h
  by_cases he : (stripDashEnds (cleanChars false name.data)).isEmpty = true
  · rw [if_pos he] at h
    have : c = 'b' := by
      have : ("job" : String).data.getLast? = some 'b' := rfl
      rw [this] at h
      injection h with h2
      exact h2.symm
    rw [this]
    decide
  · rw [if_neg (by simp [he])] at h
    exact stripDashEnds_getLast _ c h

/-- A slice `s[:n]` has length at most `n`. -/
theorem pyTake_length_le (s : String) (n : Nat) : (pyTake s n).length ≤ n := by
  show (s.data.take n).length ≤ n
  simp

/-- `rstrip(\"-\")` never lengthens. -/
theorem pyRstripDash_length (s : String) :
    (pyRstripDash s).length ≤ s.length := by
  show (s.data.rdropWhile (fun c => c == '-')).length ≤ s.data.length
  exact ((List.rdropWhile_prefix _ _).sublist).length_le

/-- Claim C4: for every (solution, problem) pair and any digest function,
the derived `safe_name` has length at most 63, every character in
`[a-z0-9-]`, and neither a leading nor a trailing `-`. -/
theorem claim_C4_safe_name (md5hex : String → String) (p : Pair) :
    (p.safe_name md5hex).length ≤ 63 ∧
    (∀ c ∈ (p.safe_name md5hex).data, validChar c = true) ∧
    (∀ c, (p.safe_name md5hex).data.head? = some c → c ≠ '-') ∧
    (∀ c, (p.safe_name md5hex).data.getLast? = some c → c ≠ '-') := by
  have hrfl : p.safe_name md5hex =
      sanitize_name (pyRstripDash
        (pyTake (sanitize_name (p.solution ++ "-" ++ p.problem))
          (63 - ("-" ++ pyTake (md5hex (p.solution ++ "-" ++ p.problem)) 8).length)) ++
        ("-" ++ pyTake (md5hex (p.solution ++ "-" ++ p.problem)) 8)) := rfl
  rw [hrfl]
  set sfx := "-" ++ pyTake (md5hex (p.solution ++ "-" ++ p.problem)) 8 with hsfx
  set trm := pyRstripDash
    (pyTake (sanitize_name (p.solution ++ "-" ++ p.problem)) (63 - sfx.length))
    with htrm
  refine ⟨?_, sanitize_name_valid _, ?_, ?_⟩
  · have h1 := sanitize_name_length (trm ++ sfx)
    have h2 : (trm ++ sfx).length = trm.length + sfx.length :=
      String.length_append _ _
    have h3 : trm.length ≤ 63 - sfx.length := by
      rw [htrm]
      exact le_trans (pyRstripDash_length _) (pyTake_length_le _ _)
    have h4 : sfx.length ≤ 9 := by
      rw [hsfx, String.length_append]
      have h5 : ("-" : String).length = 1 := rfl
      have h6 := pyTake_length_le (md5hex (p.solution ++ "-" ++ p.problem)) 8
      omega
    omega
  · intro c hc
    have hb := sanitize_name_head _ c hc
    exact beq_eq_false_iff_ne.mp hb
  · intro c hc
    have hb := sanitize_name_getLast _ c hc
    exact beq_eq_false_iff_ne.mp hb

end FrontierCS
